import Mathlib

/-!
Verification development for the yeelight LAN-control client (package
`yeelight`, file `yeelight.go` plus its type declarations).

The Go source is shallowly embedded: pure transforms become Lean functions,
stateful methods on `*Light` become functions from a `Light` state to a new
`Light` state plus outputs, machine `int32` arithmetic is `Int` with an
explicit wrap at 2^32, and fallible operations return `Except`/`Option`.
Network and timer effects are replaced by explicit oracles (a `Bool` for a
write or dial outcome, a list of delivered results for a bounded wait, a
list of loop events for the read loop).
-/

namespace Yeelight

/-- Light's connectivity constants (from the const block of the type file). -/
def OFFLINE : Int := 0

def SSDP : Int := 1

def UPDATING : Int := 2

def ONLINE : Int := 3

/-- Two's-complement wrap of an integer to the `int32` range, matching Go's
defined wraparound for `int32` arithmetic (`ReqCount`, `atomic.AddInt32`,
and conversions `int32(x)`). -/
def wrap32 (x : Int) : Int :=
  (x + 2147483648) % 4294967296 - 2147483648

theorem wrap32_idem (x : Int) : wrap32 (wrap32 x) = wrap32 x := by
  simp only [wrap32]
  omega

theorem wrap32_add_left (x y : Int) : wrap32 (wrap32 x + y) = wrap32 (x + y) := by
  simp only [wrap32]
  omega

theorem wrap32_sub_left (x y : Int) : wrap32 (wrap32 x - y) = wrap32 (x - y) := by
  simp only [wrap32]
  omega

theorem wrap32_eq_self (x : Int) (h1 : -2147483648 ≤ x) (h2 : x < 2147483648) :
    wrap32 x = x := by
  simp only [wrap32]
  omega

deriving instance DecidableEq for Except

/-- A TCP stream endpoint; only what the embedding observes: whether the
underlying descriptor has been closed.  `closed = true` models a connection
whose `Close` has already run (a further close errors). -/
structure TCPConn where
  closed : Bool
deriving Repr, DecidableEq

/-- A fresh stream returned by a successful dial. -/
def freshConn : TCPConn := ⟨false⟩

/-- One element of a command's `params` slice (`[]interface{}` in Go).
`pbad` stands for a value `json.Marshal` rejects (e.g. a channel), so the
marshal-failure path of `SendCommand` is reachable in the model. -/
inductive Param where
  | pstr (s : String)
  | pint (v : Int)
  | pbad
deriving Repr, DecidableEq

/-- Command: the outbound wire message `{id, method, params}`. -/
structure Command where
  ID : Int
  Method : String
  Params : List Param
deriving Repr, DecidableEq

/-- Result: the inbound reply `{id, result, error}`; the embedding keeps the
fields the session logic inspects (`DevID` is stamped by the listener). -/
structure Result where
  DevID : String
  ID : Int
deriving Repr, DecidableEq

/-- A JSON value inside a notification's `params` mapping: numbers arrive as
`float64` (here an integer), everything else the code reads is a string. -/
inductive PValue where
  | num (v : Int)
  | str (s : String)
deriving Repr, DecidableEq

/-- Notification: the inbound property push `{method, params}`. -/
structure Notification where
  DevID : String
  Method : String
  Params : List (String × PValue)
deriving Repr, DecidableEq

/-- The error values of the package (the `errors.New` block plus the
outcomes of I/O the code surfaces). -/
inductive YError where
  | withoutYeelightPrefix
  | invalidField
  | commandNotSupported
  | notConnected
  | invalidParam
  | marshalError
  | connectFailed
  | ioError
deriving Repr, DecidableEq

/-- First-match association lookup, the model of reads from a Go map (an
insert conses in front, so the first hit is the live binding). -/
def lookupKV {α : Type} (ps : List (String × α)) (k : String) : Option α :=
  (ps.find? (fun p => p.1 == k)).map (fun p => p.2)

/-- Integer-keyed variant for the pending-calls map `map[int32]*Command`. -/
def lookupCall (ps : List (Int × Command)) (k : Int) : Option Command :=
  (ps.find? (fun p => p.1 == k)).map (fun p => p.2)

/-- Light: the device record (fields of the current `Light` struct; the
`refresh` timer channel, `Reader` and `LastSeen` wall-clock field are not
part of the model, the stream is the abstracted `TCPConn`). -/
structure Light where
  Address : String
  Name : String
  ID : String
  Model : String
  CacheControl : String
  FW : Int
  Power : String
  Bright : Int
  Sat : Int
  CT : Int
  RGB : Int
  Hue : Int
  ColorMode : Int
  Support : List String
  ReqCount : Int
  Status : Int
  Conn : Option TCPConn
  Calls : List (Int × Command)
deriving Repr, DecidableEq

/-- An all-zero light (the Go zero value), used as a match fallback. -/
def light0 : Light :=
  { Address := "", Name := "", ID := "", Model := "", CacheControl := ""
    FW := 0, Power := "", Bright := 0, Sat := 0, CT := 0, RGB := 0, Hue := 0
    ColorMode := 0, Support := [], ReqCount := 0, Status := 0
    Conn := none, Calls := [] }

/-- Discovery headers: the key/value mapping handed to `Parse`. -/
def Headers : Type := List (String × String)

/-- Model of `header.Get(k)`: the value for `k`, or the empty string when absent. -/
def hGet (h : Headers) (k : String) : String :=
  (lookupKV h k).getD ""

/-- Model of `strconv.Atoi`, returning the value the caller sees and an ok flag:
optional sign, then decimal digits, nothing else; the value is `0` on a
syntax error and clamped on 64-bit range overflow (Go returns `ErrRange`
with the clamped value). -/
def goAtoi (s : String) : Int × Bool :=
  let cs := s.toList
  let signed : Bool × List Char :=
    match cs with
    | '-' :: rest => (true, rest)
    | '+' :: rest => (false, rest)
    | _ => (false, cs)
  let neg := signed.1
  let ds := signed.2
  if ds.isEmpty ∨ ¬ ds.all Char.isDigit then (0, false)
  else
    let n : Nat := ds.foldl (fun a c => a * 10 + (c.toNat - 48)) 0
    let v : Int := if neg then -(n : Int) else (n : Int)
    if v < -9223372036854775808 then (-9223372036854775808, false)
    else if v > 9223372036854775807 then (9223372036854775807, false)
    else (v, true)

/-- Character-list prefix test, the model of `strings.HasPrefix` (written
out structurally so that proofs can evaluate it). -/
def charsStartWith : List Char → List Char → Bool
  | _, [] => true
  | [], _ :: _ => false
  | c :: cs, p :: ps => c == p && charsStartWith cs ps

/-- Split a character list at every space, the model of
`strings.Split(s, " ")`: splitting the empty string yields one empty
token, and consecutive spaces yield empty tokens between them. -/
def splitSpace : List Char → List (List Char)
  | [] => [[]]
  | c :: cs =>
      match splitSpace cs with
      | [] => [[]]
      | w :: ws => if c = ' ' then [] :: w :: ws else (c :: w) :: ws

/-- Go map insert for the support set: add the key if absent. -/
def supInsert (s : List String) (v : String) : List String :=
  if s.contains v then s else s ++ [v]

/-- Go map delete for the support set: remove the key. -/
def supDelete (s : List String) (v : String) : List String :=
  s.filter (fun w => w ≠ v)

/-- The split of the `Support` header, as the source computes it. -/
def supportTokens (h : Headers) : List String :=
  (splitSpace (hGet h "Support").toList).map String.mk

/-- Model of `Parse`: build a `Light` from discovery headers.  Faithful to the
source, including that `err` is reassigned by every `strconv.Atoi` in turn,
so the single `if err != nil` check after the block only ever sees the
error of the last call (`Color_mode`); earlier parse failures leave their
zero value in the field and are not reported. -/
def parseLight (h : Headers) : Except YError Light :=
  let addr := hGet h "Location"
  if ¬ charsStartWith addr.toList "yeelight://".toList then
    Except.error YError.withoutYeelightPrefix
  else
    let fw := goAtoi (hGet h "FW_Ver")
    let bright := goAtoi (hGet h "Bright")
    let sat := goAtoi (hGet h "Sat")
    let ct := goAtoi (hGet h "Ct")
    let rgb := goAtoi (hGet h "Rgb")
    let hue := goAtoi (hGet h "Hue")
    let color := goAtoi (hGet h "Color_mode")
    if ¬ color.2 then
      Except.error YError.invalidField
    else
      let slist := supportTokens h
      let support := slist.foldl supInsert []
      let support :=
        if support.contains "set" then
          supDelete (supInsert support "set_name") "set"
        else support
      Except.ok
        { Address := String.mk (addr.toList.drop 11)
          Name := hGet h "Name"
          ID := hGet h "Id"
          Model := hGet h "Model"
          CacheControl := hGet h "Cache-Control"
          FW := fw.1
          Power := hGet h "Power"
          Bright := bright.1
          Sat := sat.1
          CT := ct.1
          RGB := rgb.1
          Hue := hue.1
          ColorMode := color.1
          Support := support
          ReqCount := 0
          Status := 0
          Conn := none
          Calls := [] }

/-- Model of `Close`: closes the stream and forces the status to OFFLINE.  The Go
method calls `l.Conn.Close()` unconditionally; when `Conn` is nil this is a
promoted method through a nil embedded-field pointer and panics at run
time — modelled as `none`.  Otherwise the close error (already-closed
stream) is surfaced after the status is forced. -/
def closeLight (l : Light) : Option (Light × Option YError) :=
  match l.Conn with
  | none => none
  | some c =>
      let e : Option YError := if c.closed then some YError.ioError else none
      some ({ l with Conn := some { c with closed := true }, Status := OFFLINE }, e)

/-- Model of `Connect`: set status OFFLINE, dial with a bounded timeout (`dialOk` is
the dial oracle); on failure return the error with the stream untouched; on
success close any prior stream, attach the fresh one and go ONLINE. -/
def connectLight (l : Light) (dialOk : Bool) : Option YError × Light :=
  let l0 := { l with Status := OFFLINE }
  if dialOk then
    let l1 :=
      match l0.Conn with
      | some c => { l0 with Conn := some { c with closed := true }, Status := OFFLINE }
      | none => l0
    (none, { l1 with Conn := some freshConn, Status := ONLINE })
  else
    (some YError.connectFailed, l0)

/-- Model of `json.Marshal` on a command: succeeds on a command unless a param is unmarshalable. -/
def marshalOk (ps : List Param) : Bool :=
  ps.all (fun p => match p with | Param.pbad => false | _ => true)

/-- The full outcome of one `SendCommand` call: the returned request id and
error, the resulting session state, and the frames actually written to the
stream by this call (empty or one command). -/
structure SendOut where
  reqid : Int
  err : Option YError
  light : Light
  written : List Command
deriving Repr, DecidableEq

/-- Model of `SendCommand(comm, params)`: reject unsupported methods, then a missing
stream; build the command with `ID = ReqCount`; marshal; write (outcome
`writeOk`); a write failure triggers a reconnect attempt (outcome `dialOk`)
whose error — nil when the reconnect succeeds — is what the caller gets,
with id `-1`; a successful write records the pending call and returns
`atomic.AddInt32(&ReqCount,1) - 1` in `int32` arithmetic. -/
def sendCommand (l : Light) (comm : String) (params : List Param)
    (writeOk : Bool) (dialOk : Bool) : SendOut :=
  if ¬ l.Support.contains comm then
    ⟨-1, some YError.commandNotSupported, l, []⟩
  else if l.Conn.isNone then
    ⟨-1, some YError.notConnected, l, []⟩
  else
    let cmd : Command := ⟨l.ReqCount, comm, params⟩
    if ¬ marshalOk params then
      ⟨-1, some YError.marshalError, l, []⟩
    else if ¬ writeOk then
      let r := connectLight l dialOk
      ⟨-1, r.1, r.2, []⟩
    else
      let l1 := { l with Calls := (cmd.ID, cmd) :: l.Calls
                         ReqCount := wrap32 (l.ReqCount + 1) }
      ⟨wrap32 (wrap32 (l.ReqCount + 1) - 1), none, l1, [cmd]⟩

/-- Model of `processResult`: when `int32(r.ID)` keys a pending call, remove it, set
the status ONLINE and deliver the result to the waiter channel (the second
component, delivered at most once); otherwise warn and drop it. -/
def processResult (l : Light) (r : Result) : Light × Option Result :=
  match lookupCall l.Calls (wrap32 r.ID) with
  | some _ =>
      ({ l with Calls := l.Calls.filter (fun kv => kv.1 != wrap32 r.ID)
                Status := ONLINE }, some r)
  | none => (l, none)

/-- Model of `WaitResult(res, timeout)`: a single select on the result channel
versus the timeout.  `deliveries` is the sequence of results that become
available on the channel within the timeout window; the code performs one
receive: no delivery is the timeout (`none`), a delivery with the requested
id is returned (status ONLINE), a delivery with any other id is warned
about and the call returns `nil` without waiting further. -/
def waitResult (l : Light) (res : Int) (deliveries : List Result) :
    Option Result × Light :=
  match deliveries with
  | [] => (none, l)
  | r :: _ =>
      if wrap32 r.ID == res then (some r, { l with Status := ONLINE })
      else (none, l)

/-- The string-valued property table of `processNotification`. -/
def mapNotificationS : List (String × (Light → String → Light)) :=
  [ ("name", fun l v => { l with Name := v })
  , ("id", fun l v => { l with ID := v })
  , ("model", fun l v => { l with Model := v })
  , ("power", fun l v => { l with Power := v })
  , ("cache-control", fun l v => { l with CacheControl := v }) ]

/-- The integer-valued property table of `processNotification`. -/
def mapNotificationI : List (String × (Light → Int → Light)) :=
  [ ("fw_ver", fun l v => { l with FW := v })
  , ("bright", fun l v => { l with Bright := v })
  , ("color_mode", fun l v => { l with ColorMode := v })
  , ("ct", fun l v => { l with CT := v })
  , ("rgb", fun l v => { l with RGB := v })
  , ("hue", fun l v => { l with Hue := v })
  , ("sat", fun l v => { l with Sat := v }) ]

/-- Model of `processNotification`: a no-op unless the method is "props"; then every
present key of the integer table is written through `.(float64)` — a
non-number value fails the type assertion and panics (`none`) — and every
present key of the string table is written through `.(string)`, copied only
when non-empty.  Keys outside both tables are never consulted. -/
def processNotification (l : Light) (n : Notification) : Option Light :=
  if n.Method == "props" then
    (mapNotificationI.foldlM
      (fun (acc : Light) (kv : String × (Light → Int → Light)) =>
        match lookupKV n.Params kv.1 with
        | none => some acc
        | some (PValue.num v) => some (kv.2 acc v)
        | some (PValue.str _) => none) l).bind
    (fun l1 =>
      mapNotificationS.foldlM
        (fun (acc : Light) (kv : String × (Light → String → Light)) =>
          match lookupKV n.Params kv.1 with
          | none => some acc
          | some (PValue.str s) => some (if s ≠ "" then kv.2 acc s else acc)
          | some (PValue.num _) => none) l1)
  else
    some l

/-- One queued `SendCommand` invocation together with its I/O oracles. -/
structure SendReq where
  comm : String
  params : List Param
  writeOk : Bool
  dialOk : Bool
deriving Repr, DecidableEq

/-- Run a sequence of `SendCommand` calls on one session, threading the
state and collecting each call's outcome in order. -/
def runSends (l : Light) : List SendReq → Light × List SendOut
  | [] => (l, [])
  | q :: qs =>
      let o := sendCommand l q.comm q.params q.writeOk q.dialOk
      let r := runSends o.light qs
      (r.1, o :: r.2)

/-- The request ids returned by the calls that completed the send (wrote
their frame and recorded a pending call). -/
def completedIds (outs : List SendOut) : List Int :=
  outs.filterMap (fun o => if o.written.isEmpty then none else some o.reqid)

/-- The ids of all command frames written to the stream. -/
def writtenIds (outs : List SendOut) : List Int :=
  (outs.map (fun o => o.written.map (fun c => c.ID))).flatten

/-- The two kinds of receive error the read loop distinguishes. -/
inductive ReadErr where
  | eof
  | other
deriving Repr, DecidableEq

/-- One unit handed to the `Listen` processing loop's select: the shutdown
signal, the periodic refresh timer, or the receiver's next `{text, error}`
message — already split into its parsed form or its read error. -/
inductive LoopEvent where
  | done
  | refresh
  | msgData (r : Option Result) (n : Option Notification)
  | msgErr (e : ReadErr)
deriving Repr, DecidableEq

/-- The observable outcome of running the processing loop on a finite trace
of events: final session state, remaining dial oracle, number of `Connect`
attempts made from inside the loop, whether the loop exited, and the events
left unprocessed at exit. -/
structure LoopRes where
  light : Light
  dial : List Bool
  attempts : Nat
  exited : Bool
  unprocessed : List LoopEvent
deriving Repr, DecidableEq

/-- The deferred `l.Close()` that runs when the loop goroutine returns (the
stream is non-nil there, `Listen` only starts the loop after a successful
`Connect`). -/
def closeDeferred (l : Light) : Light :=
  match closeLight l with
  | some (l1, _) => l1
  | none => l

/-- The `Listen` processing loop on a finite event trace.  `done` exits
through the deferred close; `refresh` re-arms the timer and spawns an
asynchronous property query (concurrent, not part of the loop's state
thread); a data message applies the notification (a failed type assertion
panics — the defers still run) and then the result; a non-EOF read error is
logged and the loop continues; EOF makes exactly one `Connect` attempt,
consuming the head of the dial oracle: on success the loop continues with
the reconnected session, on failure it exits through the deferred close. -/
def runListen (l : Light) (dial : List Bool) : List LoopEvent → LoopRes
  | [] => ⟨l, dial, 0, false, []⟩
  | LoopEvent.done :: rest => ⟨closeDeferred l, dial, 0, true, rest⟩
  | LoopEvent.refresh :: rest => runListen l dial rest
  | LoopEvent.msgData r n :: rest =>
      let l1o : Option Light :=
        match n with
        | some nn => processNotification l nn
        | none => some l
      (match l1o with
       | none => ⟨closeDeferred l, dial, 0, true, rest⟩
       | some l1 =>
           let l2 :=
             match r with
             | some rr => (processResult l1 rr).1
             | none => l1
           runListen l2 dial rest)
  | LoopEvent.msgErr ReadErr.other :: rest => runListen l dial rest
  | LoopEvent.msgErr ReadErr.eof :: rest =>
      let c := connectLight l (dial.headD false)
      (match c.1 with
       | some _ => ⟨closeDeferred c.2, dial.tail, 1, true, rest⟩
       | none =>
           let R := runListen c.2 dial.tail rest
           ⟨R.light, R.dial, R.attempts + 1, R.exited, R.unprocessed⟩)

/-! ## Concrete fixtures -/

/-- Discovery headers whose `FW_Ver` is not an integer while every other
numeric header parses; `Location` carries the scheme prefix. -/
def hC2 : Headers :=
  [ ("Location", "yeelight://10.0.0.5:55443"), ("Id", "0x0000000003360248")
  , ("Name", "White"), ("Model", "mono"), ("FW_Ver", "abc"), ("Power", "on")
  , ("Bright", "100"), ("Sat", "0"), ("Ct", "4000"), ("Rgb", "0")
  , ("Hue", "0"), ("Color_mode", "2"), ("Support", "get_prop toggle")
  , ("Cache-Control", "max-age=3600") ]

/-- The light `Parse` actually produces on `hC2`. -/
def lightC2 : Light :=
  match parseLight hC2 with
  | Except.ok l => l
  | Except.error _ => light0

/-- A fresh connected session supporting only `toggle` (request counter 0),
as produced by discovery followed by a successful `Connect`. -/
def cl1 : Light :=
  { light0 with Support := ["toggle"], Conn := some freshConn, Status := ONLINE }

/-- A connected session whose support set is `get_prop set_power toggle`. -/
def lw4 : Light :=
  { light0 with Support := ["get_prop", "set_power", "toggle"]
                Conn := some freshConn, Status := ONLINE }

/-- The same device before any stream exists. -/
def lw4n : Light :=
  { light0 with Support := ["get_prop", "set_power", "toggle"] }

/-- A pending call with id 0 awaiting its result. -/
def cmd0 : Command := ⟨0, "toggle", []⟩

/-- A session with exactly one pending call, id 0. -/
def lw5 : Light := { light0 with Calls := [(0, cmd0)], Conn := some freshConn }

/-- A session holding an already-closed stream. -/
def lw8 : Light := { light0 with Conn := some ⟨true⟩, Status := OFFLINE }

/-! ## C2 — Parse error contract -/

/-- C2: the claim says `Parse` fails with an integer-parse error whenever
any one of the numeric headers is unparseable.  On `hC2` the `FW_Ver`
header is not parseable as an integer, yet `Parse` returns a device (with
`FW = 0`) and no error: in the source, `err` is overwritten by each
successive `strconv.Atoi`, so only a `Color_mode` failure is ever checked.
The prefix check and the `Color_mode` check do behave as claimed. -/
theorem c2_parse_swallows_atoi_error :
    parseLight hC2 = Except.ok lightC2
    ∧ lightC2.FW = 0
    ∧ (goAtoi (hGet hC2 "FW_Ver")).2 = false
    ∧ parseLight (("Location", "bulb://10.0.0.5") :: hC2)
        = Except.error YError.withoutYeelightPrefix
    ∧ parseLight (("Color_mode", "x") :: hC2) = Except.error YError.invalidField := by
  refine ⟨by decide, by decide, by decide, by decide, by decide⟩

/-! ## C3 — WaitResult -/

/-- C3 counterexample: two results are delivered within the window, first
id 1 then the requested id 0.  The claim says `WaitResult` returns the
Result carrying the requested id when one is delivered; the code performs a
single receive, so it consumes the id-1 result, warns, and returns `nil`
even though the id-0 result was delivered in time. -/
theorem c3_first_delivery_only :
    (waitResult light0 0 [⟨"dev", 1⟩, ⟨"dev", 0⟩]).1 = none
    ∧ (⟨"dev", 0⟩ : Result) ∈ [(⟨"dev", 1⟩ : Result), ⟨"dev", 0⟩]
    ∧ wrap32 (0 : Int) = 0 := by
  refine ⟨rfl, by decide, by decide⟩

/-- C3 (amended): `WaitResult(id, t)` never returns a Result whose id
differs from the requested one; it returns `nil` when no delivered Result
carries the requested id; it returns the first delivered Result when that
one carries the requested id, and returns `nil` (discarding the window)
when the first delivered Result carries a different id. -/
theorem c3_waitResult_amended (l : Light) (res : Int) (ds : List Result) :
    (∀ r, (waitResult l res ds).1 = some r → wrap32 r.ID = res)
    ∧ ((∀ r ∈ ds, wrap32 r.ID ≠ res) → (waitResult l res ds).1 = none)
    ∧ (∀ r rest, ds = r :: rest → wrap32 r.ID = res →
        waitResult l res ds = (some r, { l with Status := ONLINE }))
    ∧ (∀ r rest, ds = r :: rest → wrap32 r.ID ≠ res →
        waitResult l res ds = (none, l)) := by
  refine ⟨?_, ?_, ?_, ?_⟩
  · intro r hr
    cases ds with
    | nil => simp [waitResult] at hr
    | cons a tl =>
        by_cases hid : wrap32 a.ID = res
        · simp [waitResult, hid] at hr
          subst hr
          exact hid
        · simp [waitResult, hid] at hr
  · intro hall
    cases ds with
    | nil => rfl
    | cons a tl =>
        have : wrap32 a.ID ≠ res := hall a (by simp)
        simp [waitResult, this]
  · intro r rest hds hid
    subst hds
    simp [waitResult, hid]
  · intro r rest hds hid
    subst hds
    simp [waitResult, hid]

/-- Witness for the amended C3 at concrete inputs: an empty window times
out to `nil`, and a first delivery carrying the requested id is returned. -/
theorem c3_waitResult_amended_w :
    (waitResult light0 5 []).1 = none
    ∧ waitResult light0 0 [⟨"dev", 0⟩]
        = (some ⟨"dev", 0⟩, { light0 with Status := ONLINE }) := by
  refine ⟨?_, ?_⟩
  · exact (c3_waitResult_amended light0 5 []).2.1 (by intro r hr; cases hr)
  · exact (c3_waitResult_amended light0 0 [⟨"dev", 0⟩]).2.2.1 ⟨"dev", 0⟩ [] rfl (by decide)

/-! ## C4 — SendCommand guards -/

/-- C4: `SendCommand` rejects a method outside the support set before
anything else (the stream is not even consulted), and rejects a missing
stream when the support check passes; in both cases the session state is
untouched and nothing is written. -/
theorem c4_sendCommand_guards (l : Light) (comm : String) (ps : List Param)
    (w d : Bool) :
    (comm ∉ l.Support →
      sendCommand l comm ps w d = ⟨-1, some YError.commandNotSupported, l, []⟩)
    ∧ (comm ∈ l.Support → l.Conn = none →
      sendCommand l comm ps w d = ⟨-1, some YError.notConnected, l, []⟩) := by
  constructor
  · intro hs
    simp [sendCommand, hs]
  · intro hs hc
    simp [sendCommand, hs, hc]

/-- Witness for C4: the scenario device supports `get_prop set_power
toggle`; `set_name` is rejected as unsupported (even though a stream
exists), and `toggle` on the never-connected twin is rejected as not
connected. -/
theorem c4_sendCommand_guards_w :
    sendCommand lw4 "set_name" [] true true
      = ⟨-1, some YError.commandNotSupported, lw4, []⟩
    ∧ sendCommand lw4n "toggle" [] true true
      = ⟨-1, some YError.notConnected, lw4n, []⟩ := by
  constructor
  · exact (c4_sendCommand_guards lw4 "set_name" [] true true).1 (by decide)
  · exact (c4_sendCommand_guards lw4n "toggle" [] true true).2 (by decide) (by decide)

/-! ## C5 — processResult -/

/-- C5: an inbound Result whose id keys a still-pending call removes that
call from the pending map, marks the session ONLINE and delivers the Result
(exactly once — the second component is a single option); a Result whose id
keys no pending call is dropped, never delivered, and processing does not
fail (the function is total and leaves the state unchanged). -/
theorem c5_processResult_correlation (l : Light) (r : Result) :
    (∀ c, lookupCall l.Calls (wrap32 r.ID) = some c →
      processResult l r
        = ({ l with Calls := l.Calls.filter (fun kv => kv.1 != wrap32 r.ID)
                    Status := ONLINE }, some r))
    ∧ (lookupCall l.Calls (wrap32 r.ID) = none → processResult l r = (l, none)) := by
  constructor
  · intro c hc
    simp [processResult, hc]
  · intro hc
    simp [processResult, hc]

/-- Witness for C5: on a session with the single pending call id 0, the
result id 0 is delivered and the pending set emptied, while the result id 7
is dropped with the state unchanged. -/
theorem c5_processResult_correlation_w :
    processResult lw5 ⟨"dev", 0⟩
      = ({ lw5 with Calls := [], Status := ONLINE }, some ⟨"dev", 0⟩)
    ∧ processResult lw5 ⟨"dev", 7⟩ = (lw5, none) := by
  constructor
  · have h := (c5_processResult_correlation lw5 ⟨"dev", 0⟩).1 cmd0 (by decide)
    simpa using h
  · exact (c5_processResult_correlation lw5 ⟨"dev", 7⟩).2 (by decide)

/-! ## C8 — Close -/

/-- C8 counterexample: on a session that was never connected the stream
field is nil, and `Close` calls `l.Conn.Close()` — a method promoted
through a nil embedded-field pointer, which panics at run time (`none` in
the model) instead of being safe as the claim states. -/
theorem c8_close_nil_conn : closeLight light0 = none ∧ light0.Conn = none := by
  exact ⟨rfl, rfl⟩

/-- C8 (amended): on any session that has a stream — including one whose
stream is already closed — `Close` is safe: it forces the status to
OFFLINE, surfaces the underlying close error (present exactly when the
stream was already closed) without swallowing it, and changes nothing else;
but on a never-connected session (nil stream) `Close` faults with a nil
dereference. -/
theorem c8_close_amended (l : Light) (c : TCPConn) (h : l.Conn = some c) :
    closeLight l
      = some ({ l with Conn := some ⟨true⟩, Status := OFFLINE },
              if c.closed then some YError.ioError else none) := by
  cases c with
  | mk b => simp [closeLight, h]

/-- Witness for the amended C8: closing a session holding an already-closed
stream surfaces the error and still forces OFFLINE. -/
theorem c8_close_amended_w :
    closeLight lw8
      = some ({ lw8 with Conn := some ⟨true⟩, Status := OFFLINE },
              some YError.ioError) := by
  have h := c8_close_amended lw8 ⟨true⟩ rfl
  simpa using h

/-! ## C10 — failed sends consume nothing -/

/-- C10: whenever `SendCommand` returns without having written the command
frame (unsupported method, missing stream, marshal failure, or stream write
failure), the returned request id is `-1`, the sequence counter `ReqCount`
is unchanged, and no pending call is recorded — a failed send never
consumes a sequence id. -/
theorem c10_failed_send_consumes_nothing (l : Light) (comm : String)
    (ps : List Param) (w d : Bool)
    (h : (sendCommand l comm ps w d).written = []) :
    (sendCommand l comm ps w d).reqid = -1
    ∧ (sendCommand l comm ps w d).light.ReqCount = l.ReqCount
    ∧ (sendCommand l comm ps w d).light.Calls = l.Calls := by
  by_cases hs : comm ∈ l.Support
  · cases hcn : l.Conn with
    | none => simp [sendCommand, hs, hcn]
    | some c =>
        by_cases hm : marshalOk ps = true
        · cases w with
          | true =>
              exfalso
              simp [sendCommand, hs, hcn, hm] at h
          | false =>
              cases d <;> simp [sendCommand, hs, hcn, hm, connectLight]
        · simp [sendCommand, hs, hcn, hm]
  · simp [sendCommand, hs]

/-- Witness for C10: a marshal failure (unmarshalable param) on a live
session returns id `-1` and leaves counter and pending calls untouched. -/
theorem c10_failed_send_consumes_nothing_w :
    (sendCommand cl1 "toggle" [Param.pbad] true true).reqid = -1
    ∧ (sendCommand cl1 "toggle" [Param.pbad] true true).light.ReqCount
        = cl1.ReqCount
    ∧ (sendCommand cl1 "toggle" [Param.pbad] true true).light.Calls
        = cl1.Calls := by
  exact c10_failed_send_consumes_nothing cl1 "toggle" [Param.pbad] true true
    (by decide)

/-! ## C7 — support set from the Support header -/

theorem mem_supInsert (s : List String) (v m : String) :
    m ∈ supInsert s v ↔ m ∈ s ∨ m = v := by
  by_cases h : v ∈ s
  · have he : supInsert s v = s := by simp [supInsert, h]
    rw [he]
    constructor
    · exact Or.inl
    · rintro (hm | rfl)
      · exact hm
      · exact h
  · have he : supInsert s v = s ++ [v] := by simp [supInsert, h]
    rw [he]
    simp

theorem mem_supDelete (s : List String) (v m : String) :
    m ∈ supDelete s v ↔ m ∈ s ∧ m ≠ v := by
  simp [supDelete]

theorem mem_foldl_supInsert (ts : List String) :
    ∀ (acc : List String) (m : String),
      m ∈ ts.foldl supInsert acc ↔ m ∈ acc ∨ m ∈ ts := by
  induction ts with
  | nil =>
      intro acc m
      simp
  | cons t tl ih =>
      intro acc m
      rw [List.foldl_cons, ih, mem_supInsert, List.mem_cons]
      tauto

/-- C7: on every successfully parsed discovery response, membership in the
device's support set is exactly membership in the space-split of the
`Support` header, except that the legacy token `set` is removed and the
canonical token `set_name` is present whenever `set` was advertised. -/
theorem c7_support_membership (h : Headers) (L : Light)
    (hp : parseLight h = Except.ok L) (m : String) :
    m ∈ L.Support ↔
      ((m ∈ supportTokens h ∧ m ≠ "set")
        ∨ (m = "set_name" ∧ "set" ∈ supportTokens h)) := by
  have hne : ("set_name" : String) ≠ "set" := by decide
  simp only [parseLight] at hp
  split at hp
  · exact absurd hp (by simp)
  · split at hp
    · exact absurd hp (by simp)
    · injection hp with hp
      subst hp
      simp only
      by_cases hset : "set" ∈ supportTokens h
      · have hbase : ((supportTokens h).foldl supInsert []).contains "set" = true := by
          refine List.elem_iff.mpr ?_
          exact (mem_foldl_supInsert _ _ _).mpr (Or.inr hset)
        rw [if_pos hbase, mem_supDelete, mem_supInsert, mem_foldl_supInsert]
        simp only [List.not_mem_nil, false_or]
        constructor
        · rintro ⟨hm | rfl, hnv⟩
          · exact Or.inl ⟨hm, hnv⟩
          · exact Or.inr ⟨rfl, hset⟩
        · rintro (⟨hm, hnv⟩ | ⟨rfl, _⟩)
          · exact ⟨Or.inl hm, hnv⟩
          · exact ⟨Or.inr rfl, hne⟩
      · have hbaseP : "set" ∉ (supportTokens h).foldl supInsert [] := by
          intro hc
          exact hset (((mem_foldl_supInsert _ _ _).mp hc).resolve_left (List.not_mem_nil _))
        rw [if_neg (by simpa using hbaseP), mem_foldl_supInsert]
        simp only [List.not_mem_nil, false_or]
        constructor
        · intro hm
          refine Or.inl ⟨hm, ?_⟩
          rintro rfl
          exact hset hm
        · rintro (⟨hm, _⟩ | ⟨rfl, hs⟩)
          · exact hm
          · exact absurd hs hset

/-- Headers advertising `Support: get_prop set set_power` (the legacy token
present), with a parseable `Color_mode`. -/
def h7 : Headers :=
  [ ("Location", "yeelight://10.0.0.7:55443"), ("Color_mode", "2")
  , ("Support", "get_prop set set_power") ]

/-- The light `Parse` produces on `h7`. -/
def light7 : Light :=
  match parseLight h7 with
  | Except.ok l => l
  | Except.error _ => light0

/-- Witness for C7: on `h7` the parse succeeds and the canonical token
`set_name` is in the support set because the legacy token `set` was
advertised. -/
theorem c7_support_membership_w :
    parseLight h7 = Except.ok light7
    ∧ ("set_name" ∈ light7.Support ↔
        (("set_name" ∈ supportTokens h7 ∧ "set_name" ≠ "set")
          ∨ ("set_name" = "set_name" ∧ "set" ∈ supportTokens h7))) :=
  ⟨by decide, c7_support_membership h7 light7 (by decide) "set_name"⟩

/-! ## C6 — notification state synchronization -/

/-- A device whose display name is `White`. -/
def c6l : Light := { light0 with Name := "White" }

/-- C6 counterexample: a `props` notification carrying `name = ""` does
not overwrite the name field — the source copies a string property only
when the pushed value is non-empty — while the claim says every param key
naming a known string field overwrites that field with the value copied
verbatim (which here would set the name to the empty string). -/
theorem c6_empty_string_not_copied :
    processNotification c6l ⟨"dev", "props", [("name", PValue.str "")]⟩ = some c6l
    ∧ c6l.Name = "White"
    ∧ some c6l ≠ some ({ c6l with Name := "" }) := by
  refine ⟨by decide, by decide, by decide⟩

theorem lookupKV_single_ne {α : Type} (k k2 : String) (v : α) (h : k ≠ k2) :
    lookupKV [(k, v)] k2 = none := by
  have hb : (k == k2) = false := beq_eq_false_iff_ne.mpr h
  simp [lookupKV, List.find?, hb]

/-- C6 (amended): a notification whose method is not `props` changes
nothing; `props` with `bright = 50` sets `Bright` to 50 and leaves every
other field unchanged; every known integer key overwrites its field, every
known string key overwrites its field when the pushed value is non-empty
(an empty string leaves the field unchanged), and a key naming no known
field is ignored and never an error. -/
theorem c6_notification_amended :
    (∀ (l : Light) (d : String),
        processNotification l ⟨d, "props", [("bright", PValue.num 50)]⟩
          = some { l with Bright := 50 })
    ∧ (∀ (l : Light) (n : Notification), n.Method ≠ "props" →
        processNotification l n = some l)
    ∧ (∀ kv ∈ mapNotificationI, ∀ (l : Light) (d : String) (v : Int),
        processNotification l ⟨d, "props", [(kv.1, PValue.num v)]⟩
          = some (kv.2 l v))
    ∧ (∀ kv ∈ mapNotificationS, ∀ (l : Light) (d s : String), s ≠ "" →
        processNotification l ⟨d, "props", [(kv.1, PValue.str s)]⟩
          = some (kv.2 l s))
    ∧ (∀ (l : Light) (d k : String) (val : PValue),
        k ∉ mapNotificationI.map Prod.fst → k ∉ mapNotificationS.map Prod.fst →
        processNotification l ⟨d, "props", [(k, val)]⟩ = some l) := by
  refine ⟨?_, ?_, ?_, ?_, ?_⟩
  · intro l d
    rfl
  · intro l n h
    simp [processNotification, h]
  · intro kv hkv
    simp only [mapNotificationI, List.mem_cons, List.not_mem_nil, or_false] at hkv
    rcases hkv with rfl | rfl | rfl | rfl | rfl | rfl | rfl <;> intro l d v <;> rfl
  · intro kv hkv
    simp only [mapNotificationS, List.mem_cons, List.not_mem_nil, or_false] at hkv
    rcases hkv with rfl | rfl | rfl | rfl | rfl <;> intro l d s hs <;>
      simp [processNotification, mapNotificationI, mapNotificationS, lookupKV, hs]
  · intro l d k val hI hS
    simp only [mapNotificationI, mapNotificationS, List.map, List.mem_cons,
      List.not_mem_nil, or_false, not_or] at hI hS
    obtain ⟨h1, h2, h3, h4, h5, h6, h7⟩ := hI
    obtain ⟨g1, g2, g3, g4, g5⟩ := hS
    simp [processNotification, mapNotificationI, mapNotificationS,
      lookupKV_single_ne _ _ _ h1, lookupKV_single_ne _ _ _ h2,
      lookupKV_single_ne _ _ _ h3, lookupKV_single_ne _ _ _ h4,
      lookupKV_single_ne _ _ _ h5, lookupKV_single_ne _ _ _ h6,
      lookupKV_single_ne _ _ _ h7, lookupKV_single_ne _ _ _ g1,
      lookupKV_single_ne _ _ _ g2, lookupKV_single_ne _ _ _ g3,
      lookupKV_single_ne _ _ _ g4, lookupKV_single_ne _ _ _ g5]

/-- Witness for the amended C6 at concrete inputs: an integer key and a
non-empty string key overwrite their fields, a non-`props` method and an
unknown key change nothing. -/
theorem c6_notification_amended_w :
    processNotification light0 ⟨"dev", "props", [("sat", PValue.num 7)]⟩
        = some { light0 with Sat := 7 }
    ∧ processNotification light0 ⟨"dev", "props", [("name", PValue.str "Desk")]⟩
        = some { light0 with Name := "Desk" }
    ∧ processNotification light0 ⟨"dev", "other", []⟩ = some light0
    ∧ processNotification light0 ⟨"dev", "props", [("zzz", PValue.num 1)]⟩
        = some light0 := by
  refine ⟨?_, ?_, ?_, ?_⟩
  · exact c6_notification_amended.2.2.1 ("sat", fun l v => { l with Sat := v })
      (by simp [mapNotificationI]) light0 "dev" 7
  · exact c6_notification_amended.2.2.2.1 ("name", fun l v => { l with Name := v })
      (by simp [mapNotificationS]) light0 "dev" "Desk" (by decide)
  · exact c6_notification_amended.2.1 light0 ⟨"dev", "other", []⟩ (by decide)
  · exact c6_notification_amended.2.2.2.2 light0 "dev" "zzz" (PValue.num 1)
      (by decide) (by decide)

/-! ## C1 — request-id sequencing -/

theorem connectLight_counter (l : Light) (b : Bool) :
    ((connectLight l b).2).ReqCount = l.ReqCount
    ∧ ((connectLight l b).2).Calls = l.Calls := by
  cases b <;> cases hcn : l.Conn <;> simp [connectLight, hcn]

/-- Every `SendCommand` call either writes nothing and leaves the sequence
counter alone, or writes exactly its command (id = the current counter),
returns `AddInt32(ReqCount,1) - 1` in `int32` arithmetic, and advances the
counter by one with wraparound. -/
theorem sendCommand_cases (l : Light) (comm : String) (ps : List Param)
    (w d : Bool) :
    ((sendCommand l comm ps w d).written = []
      ∧ ((sendCommand l comm ps w d).light).ReqCount = l.ReqCount)
    ∨ ((sendCommand l comm ps w d).written = [⟨l.ReqCount, comm, ps⟩]
      ∧ (sendCommand l comm ps w d).reqid = wrap32 (wrap32 (l.ReqCount + 1) - 1)
      ∧ ((sendCommand l comm ps w d).light).ReqCount = wrap32 (l.ReqCount + 1)) := by
  by_cases hs : comm ∈ l.Support
  · cases hcn : l.Conn with
    | none =>
        left
        simp [sendCommand, hs, hcn]
    | some c =>
        by_cases hm : marshalOk ps = true
        · cases w with
          | false =>
              left
              refine ⟨?_, ?_⟩
              · simp [sendCommand, hs, hcn, hm]
              · simpa [sendCommand, hs, hcn, hm] using (connectLight_counter l d).1
          | true =>
              right
              simp [sendCommand, hs, hcn, hm]
        · left
          simp [sendCommand, hs, hcn, hm]
  · left
    simp [sendCommand, hs]

theorem range_map_shift (c : Int) (hc : wrap32 c = c) (n : Nat) :
    c :: (List.range n).map (fun (k : Nat) => wrap32 (wrap32 (c + 1) + (k : Int)))
      = (List.range (n + 1)).map (fun (k : Nat) => wrap32 (c + (k : Int))) := by
  rw [List.range_succ_eq_map, List.map_cons, List.map_map]
  congr 1
  · simpa using hc.symm
  · apply List.map_congr_left
    intro k _
    simp only [Function.comp_apply]
    rw [wrap32_add_left]
    congr 1
    push_cast
    ring

/-- Along any sequence of sends, the ids returned by the calls that
completed the send are exactly the successive counter values (with `int32`
wraparound) starting from the initial counter, and they coincide with the
ids of the frames written to the stream. -/
theorem runSends_spec (reqs : List SendReq) :
    ∀ l : Light, wrap32 l.ReqCount = l.ReqCount →
      completedIds (runSends l reqs).2
          = (List.range (completedIds (runSends l reqs).2).length).map
              (fun (k : Nat) => wrap32 (l.ReqCount + (k : Int)))
        ∧ writtenIds (runSends l reqs).2 = completedIds (runSends l reqs).2 := by
  induction reqs with
  | nil =>
      intro l hl
      simp [runSends, completedIds, writtenIds]
  | cons q qs ih =>
      intro l hl
      rcases sendCommand_cases l q.comm q.params q.writeOk q.dialOk with
        ⟨hw, hrc⟩ | ⟨hw, hid, hrc⟩
      · have ih2 := ih (sendCommand l q.comm q.params q.writeOk q.dialOk).light
          (by rw [hrc]; exact hl)
        rw [hrc] at ih2
        have hcs : completedIds ((runSends l (q :: qs)).2)
            = completedIds ((runSends (sendCommand l q.comm q.params q.writeOk q.dialOk).light qs).2) := by
          simp [runSends, completedIds, hw]
        have hws : writtenIds ((runSends l (q :: qs)).2)
            = writtenIds ((runSends (sendCommand l q.comm q.params q.writeOk q.dialOk).light qs).2) := by
          simp [runSends, writtenIds, hw]
        rw [hcs, hws]
        exact ih2
      · have ih2 := ih (sendCommand l q.comm q.params q.writeOk q.dialOk).light
          (by rw [hrc]; exact wrap32_idem _)
        rw [hrc] at ih2
        obtain ⟨ihc, ihw⟩ := ih2
        have hreq : (sendCommand l q.comm q.params q.writeOk q.dialOk).reqid = l.ReqCount := by
          rw [hid, wrap32_sub_left, add_sub_cancel_right, hl]
        have hcs : completedIds ((runSends l (q :: qs)).2)
            = l.ReqCount ::
              completedIds ((runSends (sendCommand l q.comm q.params q.writeOk q.dialOk).light qs).2) := by
          simp [runSends, completedIds, hw, hreq]
        have hws : writtenIds ((runSends l (q :: qs)).2)
            = l.ReqCount ::
              writtenIds ((runSends (sendCommand l q.comm q.params q.writeOk q.dialOk).light qs).2) := by
          simp [runSends, writtenIds, hw]
        constructor
        · rw [hcs, ihc]
          simp only [List.length_cons, List.length_map, List.length_range]
          exact range_map_shift l.ReqCount hl _
        · rw [hws, hcs, ihw]

/-- C1 counterexample: a single `SendCommand` whose stream write fails but
whose automatic reconnect succeeds returns with a nil error — a successful
return in Go terms — yet its request id is `-1`, not `0`, so the returned
ids of this one-call sequence are not the strictly increasing integers
starting at 0 that the claim requires (and the counter was never consumed). -/
theorem c1_reconnect_masks_failure :
    (sendCommand cl1 "toggle" [] false true).err = none
    ∧ (sendCommand cl1 "toggle" [] false true).reqid = -1
    ∧ cl1.ReqCount = 0
    ∧ (-1 : Int) ≠ 0 := by
  refine ⟨by decide, by decide, by decide, by decide⟩

/-- C1 (amended): over any sequence of `SendCommand` calls on one session
whose counter starts at 0, as long as at most `2^31` of them complete the
send (write their frame and record a pending call), the ids returned by
the completed calls are exactly `0, 1, 2, …` — strictly increasing, no
repeats, starting at 0 — and the ids of the command frames written to the
stream are these same ids, hence unique over the session's lifetime.  (A
call that fails to write returns id `-1`; if its automatic reconnect
succeeds, its error is also nil.) -/
theorem c1_send_ids_amended (l : Light) (reqs : List SendReq)
    (h0 : l.ReqCount = 0)
    (hn : (completedIds (runSends l reqs).2).length ≤ 2147483648) :
    completedIds (runSends l reqs).2
        = (List.range (completedIds (runSends l reqs).2).length).map
            (fun (k : Nat) => (k : Int))
    ∧ List.Pairwise (· < ·) (completedIds (runSends l reqs).2)
    ∧ (completedIds (runSends l reqs).2).Nodup
    ∧ writtenIds (runSends l reqs).2 = completedIds (runSends l reqs).2 := by
  have hwl : wrap32 l.ReqCount = l.ReqCount := by
    rw [h0]
    decide
  obtain ⟨hc, hwr⟩ := runSends_spec reqs l hwl
  rw [h0] at hc
  have hmap : (List.range (completedIds (runSends l reqs).2).length).map
        (fun (k : Nat) => wrap32 ((0 : Int) + (k : Int)))
      = (List.range (completedIds (runSends l reqs).2).length).map
          (fun (k : Nat) => (k : Int)) := by
    apply List.map_congr_left
    intro k hk
    have hkn := List.mem_range.mp hk
    rw [zero_add]
    apply wrap32_eq_self
    · omega
    · omega
  have hfinal : completedIds (runSends l reqs).2
      = (List.range (completedIds (runSends l reqs).2).length).map
          (fun (k : Nat) => (k : Int)) := hc.trans hmap
  refine ⟨hfinal, ?_, ?_, hwr.trans hfinal |>.trans hfinal.symm⟩
  · rw [hfinal]
    refine List.Pairwise.map _ ?_ (List.pairwise_lt_range _)
    intro a b hab
    exact_mod_cast hab
  · rw [hfinal]
    refine List.Pairwise.map _ ?_ (List.pairwise_lt_range _)
    intro a b hab
    exact_mod_cast Nat.ne_of_lt hab

/-- The three successful sends used to witness the amended C1. -/
def c1reqs : List SendReq :=
  [⟨"toggle", [], true, true⟩, ⟨"toggle", [], true, true⟩, ⟨"toggle", [], true, true⟩]

/-- Witness for the amended C1: three completed sends on a fresh session
return ids `[0, 1, 2]`, strictly increasing with no repeats, matching the
written frames. -/
theorem c1_send_ids_amended_w :
    completedIds (runSends cl1 c1reqs).2 = [0, 1, 2]
    ∧ List.Pairwise (· < ·) (completedIds (runSends cl1 c1reqs).2) := by
  have h := c1_send_ids_amended cl1 c1reqs rfl (by decide)
  exact ⟨by decide, h.2.1⟩

/-! ## C9 — read-loop reconnect behaviour -/

/-- Decomposition of a loop run over a concatenated trace: as long as the
first part runs without exiting, the whole run continues from its final
state, with attempt counts adding up. -/
theorem runListen_append (pre : List LoopEvent) :
    ∀ (l : Light) (dial : List Bool) (post : List LoopEvent),
      (runListen l dial pre).exited = false →
      runListen l dial (pre ++ post)
        = ⟨(runListen (runListen l dial pre).light (runListen l dial pre).dial post).light,
           (runListen (runListen l dial pre).light (runListen l dial pre).dial post).dial,
           (runListen l dial pre).attempts
             + (runListen (runListen l dial pre).light (runListen l dial pre).dial post).attempts,
           (runListen (runListen l dial pre).light (runListen l dial pre).dial post).exited,
           (runListen (runListen l dial pre).light (runListen l dial pre).dial post).unprocessed⟩ := by
  induction pre with
  | nil =>
      intro l dial post h
      simp [runListen]
  | cons e pre ih =>
      intro l dial post h
      cases e with
      | done => simp [runListen] at h
      | refresh =>
          have h' : (runListen l dial pre).exited = false := by
            simpa [runListen] using h
          simpa [runListen] using ih l dial post h'
      | msgData r n =>
          cases hn : (match n with
              | some nn => processNotification l nn
              | none => some l) with
          | none => simp [runListen, hn] at h
          | some l1 =>
              cases r with
              | none =>
                  have h' : (runListen l1 dial pre).exited = false := by
                    simpa [runListen, hn] using h
                  simpa [runListen, hn] using ih l1 dial post h'
              | some rr =>
                  have h' : (runListen (processResult l1 rr).1 dial pre).exited = false := by
                    simpa [runListen, hn] using h
                  simpa [runListen, hn] using ih (processResult l1 rr).1 dial post h'
      | msgErr re =>
          cases re with
          | other =>
              have h' : (runListen l dial pre).exited = false := by
                simpa [runListen] using h
              simpa [runListen] using ih l dial post h'
          | eof =>
              cases hc : (connectLight l (dial.headD false)).1 with
              | some e =>
                  simp only [runListen, hc] at h
                  exact absurd h (by simp)
              | none =>
                  have h' : (runListen (connectLight l (dial.headD false)).2
                      dial.tail pre).exited = false := by
                    simpa only [runListen, hc] using h
                  have hih := ih (connectLight l (dial.headD false)).2 dial.tail post h'
                  simp only [runListen, hc, List.append_eq, hih, LoopRes.mk.injEq]
                  exact ⟨trivial, trivial, by omega, trivial, trivial⟩

theorem closeDeferred_connect_fail_status (x : Light) :
    (closeDeferred (connectLight x false).2).Status = OFFLINE := by
  cases hcn : x.Conn <;> simp [connectLight, closeDeferred, closeLight, hcn]

/-- C9: in the processing loop, a read yielding end-of-stream triggers
exactly one `Connect` attempt.  When that attempt fails, the loop exits at
once through the deferred close — the events after the EOF are left
unprocessed (no further reads) and the session's status is OFFLINE
(Disconnected).  When it succeeds, the loop continues over the remaining
events with the reconnected session.  A read yielding any other error is
logged and the loop continues without any reconnect attempt. -/
theorem c9_read_loop_reconnect (l : Light) (dial : List Bool)
    (pre rest : List LoopEvent)
    (h : (runListen l dial pre).exited = false) :
    ((runListen l dial pre).dial.headD false = false →
      runListen l dial (pre ++ LoopEvent.msgErr ReadErr.eof :: rest)
        = ⟨closeDeferred (connectLight (runListen l dial pre).light false).2,
           (runListen l dial pre).dial.tail,
           (runListen l dial pre).attempts + 1, true, rest⟩
      ∧ (runListen l dial (pre ++ LoopEvent.msgErr ReadErr.eof :: rest)).light.Status
          = OFFLINE)
    ∧ ((runListen l dial pre).dial.headD false = true →
      runListen l dial (pre ++ LoopEvent.msgErr ReadErr.eof :: rest)
        = ⟨(runListen (connectLight (runListen l dial pre).light true).2
              (runListen l dial pre).dial.tail rest).light,
           (runListen (connectLight (runListen l dial pre).light true).2
              (runListen l dial pre).dial.tail rest).dial,
           (runListen l dial pre).attempts + 1
             + (runListen (connectLight (runListen l dial pre).light true).2
                  (runListen l dial pre).dial.tail rest).attempts,
           (runListen (connectLight (runListen l dial pre).light true).2
              (runListen l dial pre).dial.tail rest).exited,
           (runListen (connectLight (runListen l dial pre).light true).2
              (runListen l dial pre).dial.tail rest).unprocessed⟩)
    ∧ (runListen l dial (pre ++ LoopEvent.msgErr ReadErr.other :: rest)
        = ⟨(runListen (runListen l dial pre).light (runListen l dial pre).dial rest).light,
           (runListen (runListen l dial pre).light (runListen l dial pre).dial rest).dial,
           (runListen l dial pre).attempts
             + (runListen (runListen l dial pre).light (runListen l dial pre).dial rest).attempts,
           (runListen (runListen l dial pre).light (runListen l dial pre).dial rest).exited,
           (runListen (runListen l dial pre).light (runListen l dial pre).dial rest).unprocessed⟩) := by
  refine ⟨?_, ?_, ?_⟩
  · intro hd
    have happ := runListen_append pre l dial (LoopEvent.msgErr ReadErr.eof :: rest) h
    have hf2 : (connectLight (runListen l dial pre).light false).1
        = some YError.connectFailed := by
      simp [connectLight]
    have hstep : runListen (runListen l dial pre).light (runListen l dial pre).dial
        (LoopEvent.msgErr ReadErr.eof :: rest)
        = ⟨closeDeferred (connectLight (runListen l dial pre).light false).2,
           (runListen l dial pre).dial.tail, 1, true, rest⟩ := by
      simp only [runListen, hd, hf2]
    constructor
    · rw [happ, hstep]
    · rw [happ, hstep]
      exact closeDeferred_connect_fail_status _
  · intro hd
    have happ := runListen_append pre l dial (LoopEvent.msgErr ReadErr.eof :: rest) h
    have hok : (connectLight (runListen l dial pre).light true).1 = none := by
      simp [connectLight]
    have hstep : runListen (runListen l dial pre).light (runListen l dial pre).dial
        (LoopEvent.msgErr ReadErr.eof :: rest)
        = ⟨(runListen (connectLight (runListen l dial pre).light true).2
              (runListen l dial pre).dial.tail rest).light,
           (runListen (connectLight (runListen l dial pre).light true).2
              (runListen l dial pre).dial.tail rest).dial,
           (runListen (connectLight (runListen l dial pre).light true).2
              (runListen l dial pre).dial.tail rest).attempts + 1,
           (runListen (connectLight (runListen l dial pre).light true).2
              (runListen l dial pre).dial.tail rest).exited,
           (runListen (connectLight (runListen l dial pre).light true).2
              (runListen l dial pre).dial.tail rest).unprocessed⟩ := by
      simp only [runListen, hd, hok]
    rw [happ, hstep]
    simp only [LoopRes.mk.injEq]
    exact ⟨trivial, trivial, by omega, trivial, trivial⟩
  · have happ := runListen_append pre l dial (LoopEvent.msgErr ReadErr.other :: rest) h
    have hstep : runListen (runListen l dial pre).light (runListen l dial pre).dial
        (LoopEvent.msgErr ReadErr.other :: rest)
        = runListen (runListen l dial pre).light (runListen l dial pre).dial rest := by
      simp only [runListen]
    rw [happ, hstep]

/-- A freshly connected session used to witness the read-loop behaviour. -/
def lw9 : Light := { light0 with Conn := some freshConn, Status := ONLINE }

/-- Witness for C9 at a concrete trace: on a connected session whose single
reconnect attempt is doomed to fail, an EOF read makes exactly one attempt,
the loop exits with status OFFLINE, and the event after the EOF is never
processed. -/
theorem c9_read_loop_reconnect_w :
    runListen lw9 [false] ([] ++ LoopEvent.msgErr ReadErr.eof :: [LoopEvent.refresh])
      = ⟨closeDeferred (connectLight (runListen lw9 [false] []).light false).2,
         (runListen lw9 [false] []).dial.tail,
         (runListen lw9 [false] []).attempts + 1, true, [LoopEvent.refresh]⟩
    ∧ (runListen lw9 [false]
        ([] ++ LoopEvent.msgErr ReadErr.eof :: [LoopEvent.refresh])).light.Status
        = OFFLINE :=
  (c9_read_loop_reconnect lw9 [false] [] [LoopEvent.refresh] (by decide)).1 (by decide)

end Yeelight
